import Mathlib

/-!
Shallow embedding of the catalog store of `bot/database.py`
(class `DatabaseManager`, a flat-table folder/file catalog over PostgreSQL).

Modelling conventions:
* A table is a `List` of row structures; `SERIAL id` columns are not
  modelled (no operation reads them).
* `CURRENT_TIMESTAMP` is an explicit `Nat` argument `t` to each operation
  that writes a timestamp.
* Each operation that executes SQL takes a `fault : Option Nat` argument:
  `some k` means the k-th SQL statement (0-based) executed inside the
  `try:` block raises a storage exception; statements before the k-th have
  already taken effect (the connection runs with `autocommit = True`).
  `none` (or an index past the last statement) means no storage fault.
* Python return values of the mutation methods are modelled as
  `Option Bool`: `some b` for `return True/False`, `none` for Python's
  implicit `None`.
* SQL `LIKE` / `ILIKE` are modelled by a pattern matcher `likeMatchAux`
  over `List Char` with `%`, `_` and the default escape character `\`,
  since the source interpolates raw strings into the pattern
  (`f"{folder_path}%"`, `f'%{query}%'`).
-/

/-- A row of the `folders` table: `(path UNIQUE, name, parent_path, created_at)`. -/
structure FolderRow where
  path : String
  name : String
  parent_path : Option String
  created_at : Nat
deriving DecidableEq, Repr

/-- A row of the `files` table:
`(filename, folder_path, file_id, file_type, file_size, created_at)`,
with `UNIQUE(filename, folder_path)`. -/
structure FileRow where
  filename : String
  folder_path : String
  file_id : String
  file_type : String
  file_size : Nat
  created_at : Nat
deriving DecidableEq, Repr

/-- A row of the `users` table: `(user_id PRIMARY KEY, username, first_seen, last_seen)`. -/
structure UserRow where
  user_id : Int
  username : String
  first_seen : Nat
  last_seen : Nat
deriving DecidableEq, Repr

/-- The whole database state. -/
structure DBState where
  folders : List FolderRow
  files : List FileRow
  users : List UserRow
deriving DecidableEq, Repr

/-- The state of a freshly created (empty) database, before `create_tables`. -/
def emptyDB : DBState := ⟨[], [], []⟩

/-- Python `s.rstrip('/')`: remove all trailing `/` characters.
(Expressed on the character list so that it evaluates by kernel
reduction.) -/
def rstripSlash (s : String) : String :=
  String.mk (s.data.reverse.dropWhile (fun c => c == '/')).reverse

/-- The child-path computation shared by `create_folder` and `delete_folder`:
`f"{parent_path.rstrip('/')}/{folder_name}"`, overridden to
`f"/{folder_name}"` when `parent_path == '/'`. -/
def computePath (parent_path folder_name : String) : String :=
  if parent_path == "/" then "/" ++ folder_name
  else rstripSlash parent_path ++ "/" ++ folder_name

/-- `suffixAny f s` is true when `f` holds of some suffix of `s`
(including `s` itself and `[]`). Used for the `%` wildcard. -/
def suffixAny (f : List Char → Bool) : List Char → Bool
  | [] => f []
  | c :: cs => f (c :: cs) || suffixAny f cs

/-- SQL `LIKE` pattern matching over character lists, parameterised by the
character comparison `eqc` (equality for `LIKE`, case-folded equality for
`ILIKE`). `%` matches any sequence, `_` any single character, and `\`
(PostgreSQL's default escape) makes the next pattern character literal. -/
def likeMatchAux (eqc : Char → Char → Bool) : List Char → List Char → Bool
  | [], s => s.isEmpty
  | p :: ps, s =>
    if p = '%' then
      suffixAny (likeMatchAux eqc ps) s
    else if p = '_' then
      match s with
      | [] => false
      | _ :: cs => likeMatchAux eqc ps cs
    else if p = '\\' then
      match ps with
      | [] => false
      | p2 :: ps2 =>
        match s with
        | [] => false
        | c :: cs => eqc p2 c && likeMatchAux eqc ps2 cs
    else
      match s with
      | [] => false
      | c :: cs => eqc p c && likeMatchAux eqc ps cs

/-- Case-folded character equality used by `ILIKE` (ASCII case folding,
matching `Char.toLower`). -/
def lowEq (a b : Char) : Bool := a.toLower == b.toLower

/-- SQL `expr LIKE pat` (case-sensitive). -/
def sqlLike (pat s : String) : Bool :=
  likeMatchAux (fun a b => a == b) pat.data s.data

/-- SQL `expr ILIKE pat` (case-insensitive). -/
def sqlILike (pat s : String) : Bool :=
  likeMatchAux lowEq pat.data s.data

/-- One Python dict assignment `d[k] = v` on an association list kept in
insertion order: an existing key keeps its position and gets the new value,
a new key is appended at the end. -/
def dictSet (d : List (String × α)) (k : String) (v : α) : List (String × α) :=
  if d.any (fun q => q.1 == k) then
    d.map (fun q => if q.1 == k then (k, v) else q)
  else d ++ [(k, v)]

/-- A Python dict built from a sequence of key/value assignments in order
(the semantics of the dict comprehensions in `get_folder_structure`). -/
def dictFromList (l : List (String × α)) : List (String × α) :=
  l.foldl (fun d q => dictSet d q.1 q.2) []

/-- The value returned by `get_folder_structure`:
`{'subfolders': {name: {} ...}, 'files': {filename: file_id ...}}`.
The subfolder dict always maps to `{}`, so only its keys are kept. -/
structure FolderStructure where
  subfolders : List String
  files : List (String × String)
deriving DecidableEq, Repr

/-- The ordering used by `ORDER BY name` on `folders` rows. -/
@[reducible] def folderRowLe (a b : FolderRow) : Prop := a.name ≤ b.name

/-- The ordering used by `ORDER BY filename` on `files` rows. -/
@[reducible] def fileRowLe (a b : FileRow) : Prop := a.filename ≤ b.filename

instance : DecidableRel folderRowLe := fun a b => inferInstanceAs (Decidable (a.name ≤ b.name))

instance : DecidableRel fileRowLe := fun a b => inferInstanceAs (Decidable (a.filename ≤ b.filename))

instance : IsTotal FolderRow folderRowLe := ⟨fun a b => le_total a.name b.name⟩

instance : IsTrans FolderRow folderRowLe := ⟨fun _ _ _ h1 h2 => le_trans h1 h2⟩

instance : IsTotal FileRow fileRowLe := ⟨fun a b => le_total a.filename b.filename⟩

instance : IsTrans FileRow fileRowLe := ⟨fun _ _ _ h1 h2 => le_trans h1 h2⟩

/-- `DatabaseManager.create_tables`: `CREATE TABLE IF NOT EXISTS` for the
three tables (a no-op on the state), then
`INSERT INTO folders (path, name, parent_path) VALUES ('/', 'Root', NULL)
ON CONFLICT (path) DO NOTHING`. On a storage error it re-raises, so only
the completed run is modelled. -/
def create_tables (s : DBState) (t : Nat) : DBState :=
  if s.folders.any (fun r => r.path == "/") then s
  else { s with folders := s.folders ++ [⟨"/", "Root", none, t⟩] }

/-- `DatabaseManager.get_folder_structure`: two `SELECT`s (statement 0 on
`folders` with `parent_path = path ORDER BY name`, statement 1 on `files`
with `folder_path = path ORDER BY filename`), results collected into dict
comprehensions; any storage fault is caught and the empty structure
returned. -/
def get_folder_structure (s : DBState) (path : String) (fault : Option Nat) : FolderStructure :=
  match fault with
  | some 0 => ⟨[], []⟩
  | some 1 => ⟨[], []⟩
  | _ =>
    let subRows := List.insertionSort folderRowLe
      (s.folders.filter (fun r => r.parent_path == some path))
    let fileRows := List.insertionSort fileRowLe
      (s.files.filter (fun r => r.folder_path == path))
    ⟨(dictFromList (subRows.map (fun r => (r.name, ())))).map Prod.fst,
     dictFromList (fileRows.map (fun r => (r.filename, r.file_id)))⟩

/-- `DatabaseManager.create_folder`: computes the child path, then one
`INSERT INTO folders`; a duplicate path raises `IntegrityError` (returns
`False`), any other storage error also returns `False`. -/
def create_folder (s : DBState) (parent_path folder_name : String) (t : Nat)
    (fault : Option Nat) : DBState × Option Bool :=
  let new_path := computePath parent_path folder_name
  match fault with
  | some 0 => (s, some false)
  | _ =>
    if s.folders.any (fun r => r.path == new_path) then (s, some false)
    else ({ s with folders := s.folders ++ [⟨new_path, folder_name, some parent_path, t⟩] },
          some true)

/-- `DatabaseManager.delete_folder`: computes the folder path, then
statement 0 `DELETE FROM files WHERE folder_path LIKE '{path}%'` and
statement 1 `DELETE FROM folders WHERE path LIKE '{path}%'` (autocommit:
a fault at statement 1 keeps statement 0's effect); storage errors are
caught and `False` returned. -/
def delete_folder (s : DBState) (parent_path folder_name : String)
    (fault : Option Nat) : DBState × Option Bool :=
  let folder_path := computePath parent_path folder_name
  let pat := folder_path ++ "%"
  match fault with
  | some 0 => (s, some false)
  | some 1 => ({ s with files := s.files.filter (fun r => !(sqlLike pat r.folder_path)) },
               some false)
  | _ => ({ s with files := s.files.filter (fun r => !(sqlLike pat r.folder_path)),
                   folders := s.folders.filter (fun r => !(sqlLike pat r.path)) },
          some true)

/-- `DatabaseManager.add_file`: one `INSERT ... ON CONFLICT (filename,
folder_path) DO UPDATE SET file_id, file_type, file_size, created_at`. -/
def add_file (s : DBState) (folder_path filename file_id file_type : String)
    (file_size : Nat) (t : Nat) (fault : Option Nat) : DBState × Option Bool :=
  match fault with
  | some 0 => (s, some false)
  | _ =>
    if s.files.any (fun r => r.filename == filename && r.folder_path == folder_path) then
      ({ s with files := s.files.map (fun r =>
          if r.filename == filename && r.folder_path == folder_path then
            { r with file_id := file_id, file_type := file_type,
                     file_size := file_size, created_at := t }
          else r) }, some true)
    else
      ({ s with files := s.files ++ [⟨filename, folder_path, file_id, file_type, file_size, t⟩] },
       some true)

/-- `DatabaseManager.delete_file`: one exact-match `DELETE`. -/
def delete_file (s : DBState) (folder_path filename : String)
    (fault : Option Nat) : DBState × Option Bool :=
  match fault with
  | some 0 => (s, some false)
  | _ => ({ s with files :=
            s.files.filter (fun r => !(r.filename == filename && r.folder_path == folder_path)) },
          some true)

/-- `DatabaseManager.get_file_id`: one exact-match `SELECT`, `fetchone`. -/
def get_file_id (s : DBState) (folder_path filename : String)
    (fault : Option Nat) : Option String :=
  match fault with
  | some 0 => none
  | _ => (s.files.find? (fun r => r.filename == filename && r.folder_path == folder_path)).map
      (fun r => r.file_id)

/-- `DatabaseManager.get_stats`: four `SELECT COUNT/SUM` statements; any
fault among them yields `(0, 0, 0, 0)`. The first counts
`folders WHERE path != '/'`. -/
def get_stats (s : DBState) (fault : Option Nat) : Nat × Nat × Nat × Nat :=
  match fault with
  | some 0 | some 1 | some 2 | some 3 => (0, 0, 0, 0)
  | _ => ((s.folders.filter (fun r => !(r.path == "/"))).length,
          s.files.length,
          (s.files.map (fun r => r.file_size)).sum,
          s.users.length)

/-- `DatabaseManager.add_user`: one `INSERT ... ON CONFLICT (user_id)
DO UPDATE SET username, last_seen`; the Python method has no `return`
statement on any path, so the result is always `none` (Python `None`). -/
def add_user (s : DBState) (user_id : Int) (username : String) (t : Nat)
    (fault : Option Nat) : DBState × Option Bool :=
  match fault with
  | some 0 => (s, none)
  | _ =>
    if s.users.any (fun u => u.user_id == user_id) then
      ({ s with users := s.users.map (fun u =>
          if u.user_id == user_id then { u with username := username, last_seen := t } else u) },
       none)
    else
      ({ s with users := s.users ++ [⟨user_id, username, t, t⟩] }, none)

/-- `DatabaseManager.search_files`: one
`SELECT filename, folder_path, file_id FROM files WHERE filename ILIKE
'%{query}%' LIMIT 20`; storage errors yield `[]`. -/
def search_files (s : DBState) (query : String) (fault : Option Nat) :
    List (String × String × String) :=
  match fault with
  | some 0 => []
  | _ => ((s.files.filter (fun r => sqlILike ("%" ++ query ++ "%") r.filename)).map
      (fun r => (r.filename, r.folder_path, r.file_id))).take 20

/-- The `files` table's `UNIQUE(filename, folder_path)` constraint. -/
def wfFiles (s : DBState) : Prop :=
  (s.files.map (fun r => (r.filename, r.folder_path))).Nodup

/-- The `folders` table's `UNIQUE(path)` constraint. -/
def wfFolders (s : DBState) : Prop :=
  (s.folders.map (fun r => r.path)).Nodup

instance (s : DBState) : Decidable (wfFiles s) := by
  unfold wfFiles
  exact List.nodupDecidable _

instance (s : DBState) : Decidable (wfFolders s) := by
  unfold wfFolders
  exact List.nodupDecidable _

example : sqlLike "/A%" "/A/B" = true := by decide
example : sqlLike "/A%" "/AB" = true := by decide
example : sqlLike "/A%" "/B" = false := by decide
example : sqlLike "/a_b%" "/aXb" = true := by decide
example : sqlILike "%lecture%" "Lecture01.pdf" = true := by decide
example : sqlILike "%zzz%" "Lecture01.pdf" = false := by decide

/-! ### Theory of the LIKE matcher -/

/-- A string free of `LIKE` metacharacters: no `%`, `_` or `\`.
For such strings the interpolated patterns of `delete_folder` and
`search_files` mean plain prefix / substring matching. -/
def noWildL (l : List Char) : Prop := ∀ c ∈ l, c ≠ '%' ∧ c ≠ '_' ∧ c ≠ '\\'

/-- `noWildL` on a string's characters. -/
def noWild (s : String) : Prop := noWildL s.data

instance (l : List Char) : Decidable (noWildL l) := List.decidableBAll _ l

instance (s : String) : Decidable (noWild s) := inferInstanceAs (Decidable (noWildL s.data))

/-- Pointwise comparison of two equal-length character lists by `eqc`. -/
def eqPointwise (eqc : Char → Char → Bool) : List Char → List Char → Bool
  | [], [] => true
  | c :: cs, d :: ds => eqc c d && eqPointwise eqc cs ds
  | _, _ => false

/-- The search behaviour described by the spec (§4.2 `search_files`):
case-insensitive substring match on `filename`, truncated to 20 results.
Stated separately from `search_files` so the two can be compared. -/
def searchSpec (s : DBState) (query : String) : List (String × String × String) :=
  ((s.files.filter (fun r =>
      decide ((query.data.map Char.toLower) <:+: (r.filename.data.map Char.toLower)))).map
    (fun r => (r.filename, r.folder_path, r.file_id))).take 20

/-- The store of property P5: `/A` holding `x.txt` and subfolder `/A/B`
holding `y.txt`, built through the mutation API from an initialised
store. -/
def p5Start : DBState :=
  (add_file (add_file (create_folder (create_folder (create_tables emptyDB 0)
    "/" "A" 1 none).1 "/A" "B" 2 none).1 "/A" "x.txt" "r1" "document" 0 3 none).1
    "/A/B" "y.txt" "r2" "document" 0 4 none).1

/-- The P5 store after `delete_folder("/", "A")`. -/
def p5After : DBState := (delete_folder p5Start "/" "A" none).1

/-- A store whose only file sits in folder `/aXb`: that path does not
start with `/a_b`, but the `LIKE` pattern `/a_b%` matches it because `_`
is a wildcard. -/
def wildcardDeleteState : DBState := ⟨[], [⟨"f", "/aXb", "id", "document", 0, 0⟩], []⟩

/-- A store with one file named `axb`: `a_b` is not a substring of its
name, but the `ILIKE` pattern `%a_b%` matches it. -/
def wildcardSearchState : DBState := ⟨[], [⟨"axb", "/", "id1", "document", 0, 0⟩], []⟩

/-- A store containing a folder `/AB` and no folder `/A`. -/
def prefixSiblingState : DBState := ⟨[⟨"/AB", "AB", some "/", 0⟩], [], []⟩

/-- A store containing only the root and an unrelated folder `/X`. -/
def unrelatedFolderState : DBState :=
  ⟨[⟨"/", "Root", none, 0⟩, ⟨"/X", "X", some "/", 1⟩], [], []⟩

/-- A small store used to instantiate the listing theorem: root, `/A`,
and one file inside `/A`. -/
def listDemoState : DBState :=
  ⟨[⟨"/", "Root", none, 0⟩, ⟨"/A", "A", some "/", 1⟩],
   [⟨"x.txt", "/A", "r1", "document", 0, 2⟩], []⟩

/-- The store of property P6: `Lecture01.pdf` added at `/`. -/
def lectureState : DBState :=
  (add_file emptyDB "/" "Lecture01.pdf" "ref" "document" 0 1 none).1

theorem suffixAny_eq_true (f : List Char → Bool) (s : List Char) :
    suffixAny f s = true ↔ ∃ t, t <:+ s ∧ f t = true := by
  induction s with
  | nil =>
    simp only [suffixAny]
    constructor
    · intro h
      exact ⟨[], List.suffix_rfl, h⟩
    · rintro ⟨t, ht, hf⟩
      rw [List.suffix_nil] at ht
      rw [← ht]
      exact hf
  | cons c cs ih =>
    simp only [suffixAny, Bool.or_eq_true, ih]
    constructor
    · rintro (h | ⟨t, ht, hf⟩)
      · exact ⟨c :: cs, List.suffix_rfl, h⟩
      · exact ⟨t, ht.trans (List.suffix_cons c cs), hf⟩
    · rintro ⟨t, ht, hf⟩
      rcases List.suffix_cons_iff.mp ht with h | h
      · rw [h] at hf
        exact Or.inl hf
      · exact Or.inr ⟨t, h, hf⟩

theorem likeMatch_cons_pct (eqc : Char → Char → Bool) (ps s : List Char) :
    likeMatchAux eqc ('%' :: ps) s = suffixAny (likeMatchAux eqc ps) s := by
  rw [likeMatchAux.eq_def]
  simp

theorem likeMatch_cons_lit_nil (eqc : Char → Char → Bool) (c : Char) (ps : List Char)
    (hc : c ≠ '%' ∧ c ≠ '_' ∧ c ≠ '\\') :
    likeMatchAux eqc (c :: ps) [] = false := by
  rw [likeMatchAux.eq_def]
  simp only [if_neg hc.1, if_neg hc.2.1, if_neg hc.2.2]

theorem likeMatch_cons_lit (eqc : Char → Char → Bool) (c : Char) (ps : List Char)
    (hc : c ≠ '%' ∧ c ≠ '_' ∧ c ≠ '\\') (d : Char) (ds : List Char) :
    likeMatchAux eqc (c :: ps) (d :: ds) = (eqc c d && likeMatchAux eqc ps ds) := by
  rw [likeMatchAux.eq_def]
  simp only [if_neg hc.1, if_neg hc.2.1, if_neg hc.2.2]

theorem pct_match_all (eqc : Char → Char → Bool) (t : List Char) :
    likeMatchAux eqc ['%'] t = true := by
  rw [likeMatch_cons_pct, suffixAny_eq_true]
  exact ⟨[], List.nil_suffix, rfl⟩

theorem likeMatch_append_pct (eqc : Char → Char → Bool) :
    ∀ (q t : List Char), noWildL q →
      (likeMatchAux eqc (q ++ ['%']) t = true ↔
        ∃ t1 t2, t = t1 ++ t2 ∧ eqPointwise eqc q t1 = true) := by
  intro q
  induction q with
  | nil =>
    intro t _
    constructor
    · intro _
      exact ⟨[], t, rfl, rfl⟩
    · intro _
      exact pct_match_all eqc t
  | cons c q ih =>
    intro t hw
    have hc := hw c (List.mem_cons_self c q)
    have hq : noWildL q := fun x hx => hw x (List.mem_cons_of_mem c hx)
    cases t with
    | nil =>
      rw [List.cons_append, likeMatch_cons_lit_nil eqc c _ hc]
      constructor
      · intro h
        exact absurd h (by simp)
      · rintro ⟨t1, t2, heq, hp⟩
        cases t1 with
        | nil => simp [eqPointwise] at hp
        | cons e t1 => simp at heq
    | cons d ds =>
      rw [List.cons_append, likeMatch_cons_lit eqc c _ hc]
      simp only [Bool.and_eq_true, ih ds hq]
      constructor
      · rintro ⟨hcd, t1, t2, hds, hp⟩
        refine ⟨d :: t1, t2, by rw [hds]; rfl, ?_⟩
        simp [eqPointwise, hcd, hp]
      · rintro ⟨t1, t2, heq, hp⟩
        cases t1 with
        | nil => simp [eqPointwise] at hp
        | cons e t1 =>
          rw [List.cons_append] at heq
          injection heq with h1 h2
          rw [← h1] at hp
          simp only [eqPointwise, Bool.and_eq_true] at hp
          exact ⟨hp.1, t1, t2, h2, hp.2⟩

theorem eqPointwise_beq : ∀ q t : List Char,
    eqPointwise (fun a b => a == b) q t = true ↔ q = t := by
  intro q
  induction q with
  | nil =>
    intro t
    cases t <;> simp [eqPointwise]
  | cons c q ih =>
    intro t
    cases t with
    | nil => simp [eqPointwise]
    | cons d ds =>
      simp [eqPointwise, Bool.and_eq_true, ih]

theorem eqPointwise_lowEq : ∀ q t : List Char,
    eqPointwise lowEq q t = true ↔ q.map Char.toLower = t.map Char.toLower := by
  intro q
  induction q with
  | nil =>
    intro t
    cases t <;> simp [eqPointwise]
  | cons c q ih =>
    intro t
    cases t with
    | nil => simp [eqPointwise]
    | cons d ds =>
      simp only [eqPointwise, Bool.and_eq_true, ih, List.map_cons, List.cons.injEq, lowEq,
        beq_iff_eq]

theorem isPrefixOfChar_iff (l₁ l₂ : List Char) : l₁.isPrefixOf l₂ = true ↔ l₁ <+: l₂ :=
 List.isPrefixOf_iff_prefix

theorem infixSplitIff {l₁ l₂ : List Char} : l₁ <:+: l₂ ↔ ∃ t, l₁ <+: t ∧ t <:+ l₂ :=
 List.infix_iff_prefix_suffix

/-- For a metacharacter-free string `p`, the pattern `p%` built by
`delete_folder` means exactly "starts with `p`". -/
theorem sqlLike_startsWith (p s : String) (hw : noWild p) :
    sqlLike (p ++ "%") s = p.data.isPrefixOf s.data := by
  rw [Bool.eq_iff_iff]
  unfold sqlLike
  have hdata : (p ++ "%").data = p.data ++ ['%'] := by
    simp [String.data_append]
  rw [hdata, likeMatch_append_pct _ _ _ hw]
  constructor
  · rintro ⟨t1, t2, heq, hp⟩
    rw [eqPointwise_beq] at hp
    rw [isPrefixOfChar_iff]
    exact ⟨t2, by rw [heq, hp]⟩
  · intro h
    rw [isPrefixOfChar_iff] at h
    obtain ⟨t2, ht⟩ := h
    exact ⟨p.data, t2, ht.symm, (eqPointwise_beq _ _).mpr rfl⟩

/-- For a metacharacter-free query `q`, the pattern `%q%` built by
`search_files` means exactly "contains `q` up to ASCII case". -/
theorem sqlILike_substr (q s : String) (hw : noWild q) :
    sqlILike ("%" ++ q ++ "%") s = true ↔
      (q.data.map Char.toLower) <:+: (s.data.map Char.toLower) := by
  unfold sqlILike
  have hdata : ("%" ++ q ++ "%").data = '%' :: (q.data ++ ['%']) := by
    simp [String.data_append]
  rw [hdata, likeMatch_cons_pct, suffixAny_eq_true]
  constructor
  · rintro ⟨t, hts, hm⟩
    rw [likeMatch_append_pct _ _ _ hw] at hm
    obtain ⟨t1, t2, ht, hp⟩ := hm
    rw [eqPointwise_lowEq] at hp
    rw [hp]
    apply List.IsInfix.map
    exact infixSplitIff.mpr ⟨t, ⟨t2, ht.symm⟩, hts⟩
  · intro h
    obtain ⟨l, hl, hq⟩ := List.isInfix_map_iff.mp h
    obtain ⟨t, htp, hts⟩ := infixSplitIff.mp hl
    obtain ⟨t2, ht2⟩ := htp
    refine ⟨t, hts, ?_⟩
    rw [likeMatch_append_pct _ _ _ hw]
    exact ⟨l, t2, ht2.symm, (eqPointwise_lowEq _ _).mpr hq⟩

/-! ### Theory of the Python dict built by `get_folder_structure` -/

theorem dictSet_keys (d : List (String × α)) (k : String) (v : α) :
    (dictSet d k v).map Prod.fst =
      if k ∈ d.map Prod.fst then d.map Prod.fst else d.map Prod.fst ++ [k] := by
  unfold dictSet
  by_cases h : d.any (fun q => q.1 == k) = true
  · rw [if_pos h]
    have hmem : k ∈ d.map Prod.fst := by
      rcases List.any_eq_true.mp h with ⟨q, hq, he⟩
      exact List.mem_map.mpr ⟨q, hq, beq_iff_eq.mp he⟩
    rw [if_pos hmem, List.map_map]
    apply List.map_congr_left
    intro q hq
    by_cases hk : q.1 = k
    · simp [hk]
    · simp [hk]
  · rw [if_neg h]
    have hmem : k ∉ d.map Prod.fst := by
      intro hk
      rcases List.mem_map.mp hk with ⟨q, hq, he⟩
      exact h (List.any_eq_true.mpr ⟨q, hq, beq_iff_eq.mpr he⟩)
    rw [if_neg hmem, List.map_append]
    rfl

theorem dictFold_keys_mem (l : List (String × α)) :
    ∀ (d : List (String × α)) (k : String),
      (k ∈ (l.foldl (fun d q => dictSet d q.1 q.2) d).map Prod.fst ↔
        k ∈ d.map Prod.fst ∨ k ∈ l.map Prod.fst) := by
  induction l with
  | nil =>
    intro d k
    simp
  | cons p rest ih =>
    intro d k
    rw [List.foldl_cons, ih, dictSet_keys]
    by_cases h : p.1 ∈ d.map Prod.fst
    · rw [if_pos h]
      simp only [List.map_cons, List.mem_cons]
      constructor
      · rintro (hd | hl)
        · exact Or.inl hd
        · exact Or.inr (Or.inr hl)
      · rintro (hd | he | hl)
        · exact Or.inl hd
        · rw [he]
          exact Or.inl h
        · exact Or.inr hl
    · rw [if_neg h]
      simp only [List.mem_append, List.mem_singleton, List.map_cons, List.mem_cons]
      tauto

theorem dictFold_keys_nodup (l : List (String × α)) :
    ∀ d, (d.map Prod.fst).Nodup →
      ((l.foldl (fun d q => dictSet d q.1 q.2) d).map Prod.fst).Nodup := by
  induction l with
  | nil =>
    intro d h
    exact h
  | cons p rest ih =>
    intro d h
    rw [List.foldl_cons]
    apply ih
    rw [dictSet_keys]
    by_cases hp : p.1 ∈ d.map Prod.fst
    · rw [if_pos hp]
      exact h
    · rw [if_neg hp]
      rw [List.nodup_append]
      exact ⟨h, List.nodup_singleton _, by simpa using hp⟩

theorem dictFold_of_nodup (l : List (String × α)) :
    ∀ d, ((d ++ l).map Prod.fst).Nodup →
      l.foldl (fun d q => dictSet d q.1 q.2) d = d ++ l := by
  induction l with
  | nil =>
    intro d _
    simp
  | cons p rest ih =>
    intro d h
    rw [List.foldl_cons]
    rw [List.map_append, List.nodup_append] at h
    have hp : p.1 ∉ d.map Prod.fst := by
      intro hk
      exact h.2.2 hk (by simp)
    have hset : dictSet d p.1 p.2 = d ++ [p] := by
      unfold dictSet
      rw [if_neg ?hany]
      case hany =>
        intro hany
        rcases List.any_eq_true.mp hany with ⟨q, hq, he⟩
        exact hp (List.mem_map.mpr ⟨q, hq, beq_iff_eq.mp he⟩)
    rw [hset]
    have h' : (((d ++ [p]) ++ rest).map Prod.fst).Nodup := by
      rw [← List.append_cons]
      rw [List.map_append, List.nodup_append]
      exact h
    rw [ih (d ++ [p]) h', ← List.append_cons]

theorem dictFold_keys_sorted (l : List (String × α)) :
    ∀ d, l.Pairwise (fun a b => a.1 ≤ b.1) →
      (d.map Prod.fst).Pairwise (· < ·) →
      (∀ k1 ∈ d.map Prod.fst, ∀ k2 ∈ l.map Prod.fst, k1 ≤ k2) →
      ((l.foldl (fun d q => dictSet d q.1 q.2) d).map Prod.fst).Pairwise (· < ·) := by
  induction l with
  | nil =>
    intro d _ hd _
    exact hd
  | cons p rest ih =>
    intro d hs hd hbound
    rw [List.foldl_cons]
    refine ih _ hs.of_cons ?_ ?_
    · rw [dictSet_keys]
      by_cases hp : p.1 ∈ d.map Prod.fst
      · rw [if_pos hp]
        exact hd
      · rw [if_neg hp]
        rw [List.pairwise_append]
        refine ⟨hd, by simp, ?_⟩
        intro k1 hk1 k2 hk2
        rw [List.mem_singleton] at hk2
        rw [hk2]
        refine lt_of_le_of_ne ?_ ?_
        · exact hbound k1 hk1 p.1 (by simp)
        · intro he
          rw [he] at hk1
          exact hp hk1
    · intro k1 hk1 k2 hk2
      have hk2' : p.1 ≤ k2 := by
        rcases List.mem_map.mp hk2 with ⟨q, hq, he⟩
        rw [← he]
        exact List.rel_of_pairwise_cons hs hq
      rw [dictSet_keys] at hk1
      by_cases hp : p.1 ∈ d.map Prod.fst
      · rw [if_pos hp] at hk1
        exact hbound k1 hk1 k2 (by rw [List.map_cons]; exact List.mem_cons_of_mem _ hk2)
      · rw [if_neg hp] at hk1
        rcases List.mem_append.mp hk1 with h1 | h1
        · exact hbound k1 h1 k2 (by rw [List.map_cons]; exact List.mem_cons_of_mem _ hk2)
        · rw [List.mem_singleton] at h1
          rw [h1]
          exact hk2'

theorem dictFromList_keys_mem (l : List (String × α)) (k : String) :
    k ∈ (dictFromList l).map Prod.fst ↔ k ∈ l.map Prod.fst := by
  unfold dictFromList
  rw [dictFold_keys_mem]
  simp

theorem dictFromList_keys_sorted (l : List (String × α))
    (h : l.Pairwise (fun a b => a.1 ≤ b.1)) :
    ((dictFromList l).map Prod.fst).Pairwise (· < ·) := by
  unfold dictFromList
  exact dictFold_keys_sorted l [] h (by simp) (by simp)

theorem dictFromList_of_nodup (l : List (String × α)) (h : (l.map Prod.fst).Nodup) :
    dictFromList l = l := by
  unfold dictFromList
  exact dictFold_of_nodup l [] (by simpa using h)

/-- Characterisation of the subfolder names listed by
`get_folder_structure` on the no-fault path: strictly sorted, and exactly
the names of the folder rows whose `parent_path` equals `path`. -/
theorem gfs_subfolders (s : DBState) (path : String) :
    (get_folder_structure s path none).subfolders.Pairwise (· < ·) ∧
    (∀ n : String, n ∈ (get_folder_structure s path none).subfolders ↔
      ∃ r, r ∈ s.folders ∧ r.parent_path = some path ∧ r.name = n) := by
  have hred : (get_folder_structure s path none).subfolders =
      (dictFromList ((List.insertionSort folderRowLe
        (s.folders.filter (fun r => r.parent_path == some path))).map
          (fun r => (r.name, ())))).map Prod.fst := rfl
  rw [hred]
  constructor
  · apply dictFromList_keys_sorted
    rw [List.pairwise_map]
    exact List.sorted_insertionSort folderRowLe
      (s.folders.filter (fun r => r.parent_path == some path))
  · intro n
    rw [dictFromList_keys_mem, List.map_map]
    simp only [List.mem_map, Function.comp, List.mem_insertionSort, List.mem_filter,
      beq_iff_eq]
    constructor
    · rintro ⟨r, ⟨hr, hpp⟩, hn⟩
      exact ⟨r, hr, hpp, hn⟩
    · rintro ⟨r, hr, hpp, hn⟩
      exact ⟨r, ⟨hr, hpp⟩, hn⟩

/-- Characterisation of the file dict returned by `get_folder_structure`
on the no-fault path, under the `UNIQUE(filename, folder_path)`
constraint: sorted strictly by filename, and exactly the
(filename, file_id) pairs of the file rows whose `folder_path` equals
`path`. -/
theorem gfs_files (s : DBState) (path : String) (hwf : wfFiles s) :
    (get_folder_structure s path none).files.Pairwise (fun a b => a.1 < b.1) ∧
    (∀ fn fid : String, (fn, fid) ∈ (get_folder_structure s path none).files ↔
      ∃ r, r ∈ s.files ∧ r.folder_path = path ∧ r.filename = fn ∧ r.file_id = fid) := by
  have hred : (get_folder_structure s path none).files =
      dictFromList ((List.insertionSort fileRowLe
        (s.files.filter (fun r => r.folder_path == path))).map
          (fun r => (r.filename, r.file_id))) := rfl
  rw [hred]
  have hpairs : ((s.files.filter (fun r => r.folder_path == path)).map
      (fun r => (r.filename, r.folder_path))).Nodup :=
    List.Nodup.sublist (List.Sublist.map _ (List.filter_sublist _)) hwf
  have h2 : (s.files.filter (fun r => r.folder_path == path)).Pairwise
      (fun a b => a.filename ≠ b.filename) := by
    refine List.Pairwise.imp_of_mem ?_ (List.pairwise_map.mp hpairs)
    intro a b ha hb hne he
    have hpa : a.folder_path = path := beq_iff_eq.mp (List.mem_filter.mp ha).2
    have hpb : b.folder_path = path := beq_iff_eq.mp (List.mem_filter.mp hb).2
    apply hne
    rw [he, hpa, hpb]
  have hsnames : ((List.insertionSort fileRowLe
      (s.files.filter (fun r => r.folder_path == path))).map
        (fun r => r.filename)).Nodup := by
    have hperm := List.perm_insertionSort fileRowLe
      (s.files.filter (fun r => r.folder_path == path))
    exact ((hperm.map _).nodup_iff).mpr (List.pairwise_map.mpr h2)
  have hkeys : (((List.insertionSort fileRowLe
      (s.files.filter (fun r => r.folder_path == path))).map
        (fun r => (r.filename, r.file_id))).map Prod.fst).Nodup := by
    rw [List.map_map]
    exact hsnames
  rw [dictFromList_of_nodup _ hkeys]
  constructor
  · have hle : ((List.insertionSort fileRowLe
        (s.files.filter (fun r => r.folder_path == path))).map
          (fun r => (r.filename, r.file_id))).Pairwise (fun a b => a.1 ≤ b.1) :=
      List.pairwise_map.mpr (List.sorted_insertionSort fileRowLe _)
    have hne : ((List.insertionSort fileRowLe
        (s.files.filter (fun r => r.folder_path == path))).map
          (fun r => (r.filename, r.file_id))).Pairwise (fun a b => a.1 ≠ b.1) :=
      List.pairwise_map.mp hkeys
    exact (hle.and hne).imp (fun h => lt_of_le_of_ne h.1 h.2)
  · intro fn fid
    simp only [List.mem_map, List.mem_insertionSort, List.mem_filter, beq_iff_eq,
      Prod.mk.injEq]
    constructor
    · rintro ⟨r, ⟨hr, hpp⟩, hfn, hfid⟩
      exact ⟨r, hr, hpp, hfn, hfid⟩
    · rintro ⟨r, hr, hpp, hfn, hfid⟩
      exact ⟨r, ⟨hr, hpp⟩, hfn, hfid⟩

/-! ### Behaviour of the mutation and search operations -/

/-- When the computed folder path has no `LIKE` metacharacters,
`delete_folder` deletes exactly the file rows whose `folder_path` starts
with it and the folder rows whose `path` starts with it. -/
theorem delete_folder_noWild (s : DBState) (parent_path folder_name : String)
    (hw : noWild (computePath parent_path folder_name)) :
    delete_folder s parent_path folder_name none =
      ({ s with
          files := s.files.filter (fun r =>
            !((computePath parent_path folder_name).data.isPrefixOf r.folder_path.data)),
          folders := s.folders.filter (fun r =>
            !((computePath parent_path folder_name).data.isPrefixOf r.path.data)) },
        some true) := by
  have hd : delete_folder s parent_path folder_name none =
      ({ s with
          files := s.files.filter (fun r =>
            !(sqlLike (computePath parent_path folder_name ++ "%") r.folder_path)),
          folders := s.folders.filter (fun r =>
            !(sqlLike (computePath parent_path folder_name ++ "%") r.path)) },
        some true) := rfl
  have hf1 : s.files.filter (fun r =>
      !(sqlLike (computePath parent_path folder_name ++ "%") r.folder_path)) =
      s.files.filter (fun r =>
      !((computePath parent_path folder_name).data.isPrefixOf r.folder_path.data)) :=
    List.filter_congr (fun r _ => by rw [sqlLike_startsWith _ _ hw])
  have hf2 : s.folders.filter (fun r =>
      !(sqlLike (computePath parent_path folder_name ++ "%") r.path)) =
      s.folders.filter (fun r =>
      !((computePath parent_path folder_name).data.isPrefixOf r.path.data)) :=
    List.filter_congr (fun r _ => by rw [sqlLike_startsWith _ _ hw])
  rw [hd, hf1, hf2]

/-- When the query has no `LIKE` metacharacters, `search_files` computes
exactly the spec's case-insensitive substring search. -/
theorem search_files_noWild (s : DBState) (query : String) (hw : noWild query) :
    search_files s query none = searchSpec s query := by
  have hd : search_files s query none =
      ((s.files.filter (fun r => sqlILike ("%" ++ query ++ "%") r.filename)).map
        (fun r => (r.filename, r.folder_path, r.file_id))).take 20 := rfl
  rw [hd]
  unfold searchSpec
  have hf : s.files.filter (fun r => sqlILike ("%" ++ query ++ "%") r.filename) =
      s.files.filter (fun r =>
        decide ((query.data.map Char.toLower) <:+: (r.filename.data.map Char.toLower))) := by
    apply List.filter_congr
    intro r _
    rw [Bool.eq_iff_iff, sqlILike_substr _ _ hw, decide_eq_true_iff]
  rw [hf]

/-- Under `UNIQUE(filename, folder_path)`, the rows matching one key form
the singleton of any matching member. -/
theorem filter_key_singleton (fn fp : String) :
    ∀ l : List FileRow,
      (l.map (fun r => (r.filename, r.folder_path))).Nodup →
      ∀ r0 ∈ l, (r0.filename == fn && r0.folder_path == fp) = true →
      l.filter (fun r => r.filename == fn && r.folder_path == fp) = [r0] := by
  intro l
  induction l with
  | nil =>
    intro _ r0 hr0
    cases hr0
  | cons a l ih =>
    intro hnd r0 hr0 hq0
    rw [List.map_cons, List.nodup_cons] at hnd
    have hkey0 : r0.filename = fn ∧ r0.folder_path = fp := by
      rw [Bool.and_eq_true] at hq0
      exact ⟨beq_iff_eq.mp hq0.1, beq_iff_eq.mp hq0.2⟩
    by_cases ha : (a.filename == fn && a.folder_path == fp) = true
    · have hkeya : a.filename = fn ∧ a.folder_path = fp := by
        rw [Bool.and_eq_true] at ha
        exact ⟨beq_iff_eq.mp ha.1, beq_iff_eq.mp ha.2⟩
      rw [@List.filter_cons_of_pos FileRow (fun r => r.filename == fn && r.folder_path == fp) a l ha]
      have hr0a : r0 = a := by
        rcases List.mem_cons.mp hr0 with h | h
        · exact h
        · exfalso
          apply hnd.1
          exact List.mem_map.mpr ⟨r0, h,
            by rw [hkey0.1, hkey0.2, hkeya.1, hkeya.2]⟩
      have hnil : l.filter (fun r => r.filename == fn && r.folder_path == fp) = [] := by
        rw [List.filter_eq_nil_iff]
        intro x hx hqx
        rw [Bool.and_eq_true] at hqx
        apply hnd.1
        exact List.mem_map.mpr ⟨x, hx,
          by rw [beq_iff_eq.mp hqx.1, beq_iff_eq.mp hqx.2, hkeya.1, hkeya.2]⟩
      rw [hnil, hr0a]
    · rw [@List.filter_cons_of_neg FileRow (fun r => r.filename == fn && r.folder_path == fp) a l ha]
      have hr0l : r0 ∈ l := by
        rcases List.mem_cons.mp hr0 with h | h
        · exfalso
          rw [h] at hq0
          exact ha hq0
        · exact h
      exact ih hnd.2 r0 hr0l hq0

/-- One no-fault `add_file` call: returns `True`, touches only `files`,
preserves the key constraint, and the rows carrying the written key form
exactly one row holding the call's arguments. -/
theorem add_file_one (s : DBState) (fp fn fid ft : String) (sz t : Nat) (hwf : wfFiles s) :
    (add_file s fp fn fid ft sz t none).2 = some true ∧
    (add_file s fp fn fid ft sz t none).1.folders = s.folders ∧
    (add_file s fp fn fid ft sz t none).1.users = s.users ∧
    wfFiles (add_file s fp fn fid ft sz t none).1 ∧
    ((add_file s fp fn fid ft sz t none).1.files.filter
      (fun r => r.filename == fn && r.folder_path == fp)) = [⟨fn, fp, fid, ft, sz, t⟩] := by
  have hred : add_file s fp fn fid ft sz t none =
      if s.files.any (fun r => r.filename == fn && r.folder_path == fp) then
        ({ s with files := s.files.map (fun r =>
            if r.filename == fn && r.folder_path == fp then
              { r with file_id := fid, file_type := ft, file_size := sz, created_at := t }
            else r) }, some true)
      else ({ s with files := s.files ++ [⟨fn, fp, fid, ft, sz, t⟩] }, some true) := rfl
  by_cases hex : s.files.any (fun r => r.filename == fn && r.folder_path == fp) = true
  · have heq : add_file s fp fn fid ft sz t none =
        ({ s with files := s.files.map (fun r =>
            if r.filename == fn && r.folder_path == fp then
              { r with file_id := fid, file_type := ft, file_size := sz, created_at := t }
            else r) }, some true) := by
      rw [hred, if_pos hex]
    have hkeyg : ((fun r : FileRow => (r.filename, r.folder_path)) ∘
        (fun r : FileRow =>
          if r.filename == fn && r.folder_path == fp then
            { r with file_id := fid, file_type := ft, file_size := sz, created_at := t }
          else r)) = (fun r : FileRow => (r.filename, r.folder_path)) := by
      funext r
      by_cases hq : (r.filename == fn && r.folder_path == fp) = true
      · simp only [Function.comp, if_pos hq]
      · simp only [Function.comp, if_neg hq]
    have hqg : ((fun r : FileRow => r.filename == fn && r.folder_path == fp) ∘
        (fun r : FileRow =>
          if r.filename == fn && r.folder_path == fp then
            { r with file_id := fid, file_type := ft, file_size := sz, created_at := t }
          else r)) = (fun r : FileRow => r.filename == fn && r.folder_path == fp) := by
      funext r
      by_cases hq : (r.filename == fn && r.folder_path == fp) = true
      · simp only [Function.comp, if_pos hq]
      · simp only [Function.comp, if_neg hq]
    obtain ⟨r0, hr0, hq0⟩ := List.any_eq_true.mp hex
    refine ⟨by rw [heq], by rw [heq], by rw [heq], ?_, ?_⟩
    · rw [heq]
      show ((s.files.map (fun r =>
          if r.filename == fn && r.folder_path == fp then
            { r with file_id := fid, file_type := ft, file_size := sz, created_at := t }
          else r)).map (fun r => (r.filename, r.folder_path))).Nodup
      rw [List.map_map, hkeyg]
      exact hwf
    · rw [heq]
      show (s.files.map (fun r =>
          if r.filename == fn && r.folder_path == fp then
            { r with file_id := fid, file_type := ft, file_size := sz, created_at := t }
          else r)).filter (fun r => r.filename == fn && r.folder_path == fp) =
        [⟨fn, fp, fid, ft, sz, t⟩]
      rw [List.filter_map, hqg, filter_key_singleton fn fp s.files hwf r0 hr0 hq0,
        List.map_cons, List.map_nil, if_pos hq0]
      rw [Bool.and_eq_true] at hq0
      have h1 : r0.filename = fn := beq_iff_eq.mp hq0.1
      have h2 : r0.folder_path = fp := beq_iff_eq.mp hq0.2
      have hrow : (⟨r0.filename, r0.folder_path, fid, ft, sz, t⟩ : FileRow) =
          ⟨fn, fp, fid, ft, sz, t⟩ := by
        rw [h1, h2]
      rw [hrow]
  · have heq : add_file s fp fn fid ft sz t none =
        ({ s with files := s.files ++ [⟨fn, fp, fid, ft, sz, t⟩] }, some true) := by
      rw [hred, if_neg hex]
    have hany : s.files.any (fun r => r.filename == fn && r.folder_path == fp) = false := by
      rw [← Bool.not_eq_true]
      exact hex
    refine ⟨by rw [heq], by rw [heq], by rw [heq], ?_, ?_⟩
    · rw [heq]
      show ((s.files ++ [(⟨fn, fp, fid, ft, sz, t⟩ : FileRow)]).map
        (fun r => (r.filename, r.folder_path))).Nodup
      rw [List.map_append, List.nodup_append]
      refine ⟨hwf, by simp, ?_⟩
      intro k hk hk1
      simp only [List.map_cons, List.map_nil, List.mem_singleton] at hk1
      rcases List.mem_map.mp hk with ⟨r, hr, hkey⟩
      apply List.any_eq_false.mp hany r hr
      rw [hk1] at hkey
      have hfn : r.filename = fn := congrArg Prod.fst hkey
      have hfp : r.folder_path = fp := congrArg Prod.snd hkey
      rw [hfn, hfp]
      simp
    · rw [heq]
      show (s.files ++ [(⟨fn, fp, fid, ft, sz, t⟩ : FileRow)]).filter
        (fun r => r.filename == fn && r.folder_path == fp) = [⟨fn, fp, fid, ft, sz, t⟩]
      rw [List.filter_append]
      have hnil : s.files.filter (fun r => r.filename == fn && r.folder_path == fp) = [] := by
        rw [List.filter_eq_nil_iff]
        intro x hx hqx
        exact List.any_eq_false.mp hany x hx hqx
      rw [hnil, List.nil_append,
        @List.filter_cons_of_pos FileRow
          (fun r => r.filename == fn && r.folder_path == fp) _ _ (by simp), List.filter_nil]

theorem create_folder_red (s : DBState) (p n : String) (t : Nat) :
    create_folder s p n t none =
      if s.folders.any (fun r => r.path == computePath p n) then (s, some false)
      else ({ s with folders := s.folders ++ [⟨computePath p n, n, some p, t⟩] }, some true) :=
  rfl

theorem create_tables_red (s : DBState) (t : Nat) :
    create_tables s t =
      if s.folders.any (fun r => r.path == "/") then s
      else { s with folders := s.folders ++ [⟨"/", "Root", none, t⟩] } :=
  rfl

/-! ### Claim theorems -/

/-- C6: `list_children` never raises: whichever of its two SQL statements
fails, `get_folder_structure` returns the empty structure
`{subfolders: {}, files: {}}` instead of propagating the fault. -/
theorem get_folder_structure_fault_empty :
    ∀ (s : DBState) (path : String),
      get_folder_structure s path (some 0) = ⟨[], []⟩ ∧
      get_folder_structure s path (some 1) = ⟨[], []⟩ :=
  fun _ _ => ⟨rfl, rfl⟩

/-- C9: the `folder_count` component of `get_stats` counts exactly the
folder rows whose path is not `"/"`; in particular a freshly initialised
store (root only) reports 0, and after creating one folder it reports 1. -/
theorem get_stats_excludes_root :
    (∀ s : DBState, (get_stats s none).1 =
      (s.folders.filter (fun r => r.path ≠ "/")).length) ∧
    (get_stats (create_tables emptyDB 0) none).1 = 0 ∧
    (get_stats (create_folder (create_tables emptyDB 0) "/" "A" 1 none).1 none).1 = 1 := by
  refine ⟨?_, by decide, by decide⟩
  intro s
  have hred : (get_stats s none).1 = (s.folders.filter (fun r => !(r.path == "/"))).length :=
    rfl
  rw [hred]
  congr 1
  apply List.filter_congr
  intro r _
  rw [Bool.eq_iff_iff]
  simp

/-- C10: `add_user` returns Python `None` on every path — with or without
a storage fault — and a fault leaves the store unchanged; the four other
mutation operations always return an actual boolean. -/
theorem add_user_swallows_errors :
    (∀ (s : DBState) (uid : Int) (uname : String) (t : Nat) (fault : Option Nat),
      (add_user s uid uname t fault).2 = none) ∧
    (∀ (s : DBState) (uid : Int) (uname : String) (t : Nat),
      (add_user s uid uname t (some 0)).1 = s) ∧
    (∀ (s : DBState) (p n : String) (t : Nat) (fault : Option Nat),
      (create_folder s p n t fault).2 ≠ none) ∧
    (∀ (s : DBState) (p n : String) (fault : Option Nat),
      (delete_folder s p n fault).2 ≠ none) ∧
    (∀ (s : DBState) (fp fn fid ft : String) (sz t : Nat) (fault : Option Nat),
      (add_file s fp fn fid ft sz t fault).2 ≠ none) ∧
    (∀ (s : DBState) (fp fn : String) (fault : Option Nat),
      (delete_file s fp fn fault).2 ≠ none) := by
  refine ⟨?_, fun s uid uname t => rfl, ?_, ?_, ?_, ?_⟩
  · intro s uid uname t fault
    by_cases h : s.users.any (fun u => u.user_id == uid) = true <;>
      rcases fault with _ | (_ | k) <;> simp [add_user, h]
  · intro s p n t fault
    by_cases h : s.folders.any (fun r => r.path == computePath p n) = true <;>
      rcases fault with _ | (_ | k) <;> simp [create_folder, h]
  · intro s p n fault
    rcases fault with _ | (_ | (_ | k)) <;> simp [delete_folder]
  · intro s fp fn fid ft sz t fault
    by_cases h : s.files.any (fun r => r.filename == fn && r.folder_path == fp) = true <;>
      rcases fault with _ | (_ | k) <;> simp [add_file, h]
  · intro s fp fn fault
    rcases fault with _ | (_ | k) <;> simp [delete_file]

/-- C4: starting from a store without the computed path, calling
`create_folder` twice with identical arguments returns `True` then
`False` (no exception), the second call changes nothing, and exactly one
folder row with the computed path exists. -/
theorem create_folder_duplicate (s : DBState) (p n : String) (t1 t2 : Nat)
    (hnew : ∀ r ∈ s.folders, r.path ≠ computePath p n) :
    (create_folder s p n t1 none).2 = some true ∧
    (create_folder (create_folder s p n t1 none).1 p n t2 none).2 = some false ∧
    (create_folder (create_folder s p n t1 none).1 p n t2 none).1 =
      (create_folder s p n t1 none).1 ∧
    ((create_folder s p n t1 none).1.folders.filter
      (fun r => r.path == computePath p n)) = [⟨computePath p n, n, some p, t1⟩] := by
  have hany : s.folders.any (fun r => r.path == computePath p n) = false := by
    rw [List.any_eq_false]
    intro r hr hbe
    exact hnew r hr (beq_iff_eq.mp hbe)
  have h1 : create_folder s p n t1 none =
      ({ s with folders := s.folders ++ [⟨computePath p n, n, some p, t1⟩] }, some true) := by
    rw [create_folder_red, if_neg (by simp [hany])]
  have hany2 : (create_folder s p n t1 none).1.folders.any
      (fun r => r.path == computePath p n) = true := by
    rw [h1]
    rw [List.any_eq_true]
    exact ⟨⟨computePath p n, n, some p, t1⟩, by simp, by simp⟩
  have h2 : create_folder (create_folder s p n t1 none).1 p n t2 none =
      ((create_folder s p n t1 none).1, some false) := by
    rw [create_folder_red, if_pos hany2]
  refine ⟨by rw [h1], by rw [h2], by rw [h2], ?_⟩
  rw [h1]
  show (s.folders ++ [(⟨computePath p n, n, some p, t1⟩ : FolderRow)]).filter
    (fun r => r.path == computePath p n) = [⟨computePath p n, n, some p, t1⟩]
  have hnil : s.folders.filter (fun r => r.path == computePath p n) = [] := by
    rw [List.filter_eq_nil_iff]
    intro x hx hbe
    exact hnew x hx (beq_iff_eq.mp hbe)
  rw [List.filter_append, hnil, List.nil_append,
    @List.filter_cons_of_pos FolderRow (fun r => r.path == computePath p n) _ _ (by simp),
    List.filter_nil]

/-- C4 witness: the theorem applied to the freshly created empty store,
parent `/`, name `A`. -/
theorem create_folder_duplicate_witness :
    (∀ r ∈ emptyDB.folders, r.path ≠ computePath "/" "A") ∧
    ((create_folder emptyDB "/" "A" 1 none).2 = some true ∧
     (create_folder (create_folder emptyDB "/" "A" 1 none).1 "/" "A" 2 none).2 = some false ∧
     (create_folder (create_folder emptyDB "/" "A" 1 none).1 "/" "A" 2 none).1 =
       (create_folder emptyDB "/" "A" 1 none).1 ∧
     ((create_folder emptyDB "/" "A" 1 none).1.folders.filter
       (fun r => r.path == computePath "/" "A")) = [⟨computePath "/" "A", "A", some "/", 1⟩]) :=
  ⟨by decide, create_folder_duplicate emptyDB "/" "A" 1 2 (by decide)⟩

/-- C8: initialising a store that has no root row twice in sequence
leaves exactly one folder row with path `/`, and its `parent_path` is
absent (`none`). -/
theorem create_tables_idempotent_root (s : DBState) (t1 t2 : Nat)
    (h : ∀ r ∈ s.folders, r.path ≠ "/") :
    ((create_tables (create_tables s t1) t2).folders.filter
      (fun r => r.path == "/")) = [⟨"/", "Root", none, t1⟩] := by
  have hany : s.folders.any (fun r => r.path == "/") = false := by
    rw [List.any_eq_false]
    intro r hr hbe
    exact h r hr (beq_iff_eq.mp hbe)
  have h1 : create_tables s t1 = { s with folders := s.folders ++ [⟨"/", "Root", none, t1⟩] } := by
    rw [create_tables_red, if_neg (by simp [hany])]
  have hany2 : (create_tables s t1).folders.any (fun r => r.path == "/") = true := by
    rw [h1, List.any_eq_true]
    exact ⟨⟨"/", "Root", none, t1⟩, by simp, by simp⟩
  have h2 : create_tables (create_tables s t1) t2 = create_tables s t1 := by
    rw [create_tables_red, if_pos hany2]
  rw [h2, h1]
  show (s.folders ++ [(⟨"/", "Root", none, t1⟩ : FolderRow)]).filter
    (fun r => r.path == "/") = [⟨"/", "Root", none, t1⟩]
  have hnil : s.folders.filter (fun r => r.path == "/") = [] := by
    rw [List.filter_eq_nil_iff]
    intro x hx hbe
    exact h x hx (beq_iff_eq.mp hbe)
  rw [List.filter_append, hnil, List.nil_append,
    @List.filter_cons_of_pos FolderRow (fun r => r.path == "/") _ _ (by simp),
    List.filter_nil]

/-- C8 witness: the theorem applied to the fresh empty store. -/
theorem create_tables_idempotent_root_witness :
    (∀ r ∈ emptyDB.folders, r.path ≠ "/") ∧
    ((create_tables (create_tables emptyDB 0) 1).folders.filter
      (fun r => r.path == "/")) = [⟨"/", "Root", none, 0⟩] :=
  ⟨by decide, create_tables_idempotent_root emptyDB 0 1 (by decide)⟩

/-- C1 (amended): for every folder whose computed path is free of `LIKE`
metacharacters (`%`, `_`, `\`), `delete_folder` deletes exactly the file
rows whose `folder_path` starts with the computed path and the folder
rows whose `path` starts with it, returning `True`; and the P5 scenario
holds: after deleting `/A`, listing `/` no longer contains `A` and both
stored files are gone. -/
theorem delete_folder_cascade_semantics :
    (∀ (s : DBState) (parent_path folder_name : String),
      noWild (computePath parent_path folder_name) →
      delete_folder s parent_path folder_name none =
        ({ s with
            files := s.files.filter (fun r =>
              !((computePath parent_path folder_name).data.isPrefixOf r.folder_path.data)),
            folders := s.folders.filter (fun r =>
              !((computePath parent_path folder_name).data.isPrefixOf r.path.data)) },
          some true)) ∧
    ((delete_folder p5Start "/" "A" none).2 = some true ∧
     "A" ∉ (get_folder_structure p5After "/" none).subfolders ∧
     get_file_id p5After "/A" "x.txt" none = none ∧
     get_file_id p5After "/A/B" "y.txt" none = none) :=
  ⟨delete_folder_noWild, by decide⟩

/-- C1 witness: the amended theorem applied to the P5 store. -/
theorem delete_folder_cascade_semantics_witness :
    noWild (computePath "/" "A") ∧
    delete_folder p5Start "/" "A" none =
      ({ p5Start with
          files := p5Start.files.filter (fun r =>
            !((computePath "/" "A").data.isPrefixOf r.folder_path.data)),
          folders := p5Start.folders.filter (fun r =>
            !((computePath "/" "A").data.isPrefixOf r.path.data)) },
        some true) :=
  ⟨by decide, delete_folder_cascade_semantics.1 p5Start "/" "A" (by decide)⟩

/-- C1 counterexample: for folder name `a_b` the `_` acts as a `LIKE`
wildcard, so `delete_folder("/", "a_b")` deletes a file stored under
`/aXb` even though `/aXb` does not start with the computed path `/a_b` —
deletion is not plain string-prefix matching. -/
theorem delete_folder_wildcard_cex :
    wildcardDeleteState.files = [⟨"f", "/aXb", "id", "document", 0, 0⟩] ∧
    (computePath "/" "a_b").data.isPrefixOf "/aXb".data = false ∧
    (delete_folder wildcardDeleteState "/" "a_b" none).1.files = [] := by
  decide

/-- C7 (amended): `delete_folder` is a no-op returning `True` when no
stored path matches the computed prefix (the claim's bare "folder does
not exist" is not enough: prefix-sharing or descendant rows are still
deleted, see the counterexample). -/
theorem delete_folder_noop_when_no_matches (s : DBState) (parent_path folder_name : String)
    (hw : noWild (computePath parent_path folder_name))
    (hfi : ∀ r ∈ s.files,
      (computePath parent_path folder_name).data.isPrefixOf r.folder_path.data = false)
    (hfo : ∀ r ∈ s.folders,
      (computePath parent_path folder_name).data.isPrefixOf r.path.data = false) :
    delete_folder s parent_path folder_name none = (s, some true) := by
  rw [delete_folder_noWild s parent_path folder_name hw]
  have h1 : s.files.filter (fun r =>
      !((computePath parent_path folder_name).data.isPrefixOf r.folder_path.data)) =
      s.files := by
    rw [List.filter_eq_self]
    intro r hr
    rw [hfi r hr]
    rfl
  have h2 : s.folders.filter (fun r =>
      !((computePath parent_path folder_name).data.isPrefixOf r.path.data)) =
      s.folders := by
    rw [List.filter_eq_self]
    intro r hr
    rw [hfo r hr]
    rfl
  rw [h1, h2]

/-- C7 witness: deleting `/does-not-exist` from a store holding only the
root and `/X` returns `True` and changes nothing. -/
theorem delete_folder_noop_witness :
    noWild (computePath "/" "does-not-exist") ∧
    (∀ r ∈ unrelatedFolderState.files,
      (computePath "/" "does-not-exist").data.isPrefixOf r.folder_path.data = false) ∧
    (∀ r ∈ unrelatedFolderState.folders,
      (computePath "/" "does-not-exist").data.isPrefixOf r.path.data = false) ∧
    delete_folder unrelatedFolderState "/" "does-not-exist" none =
      (unrelatedFolderState, some true) :=
  ⟨by decide, by decide, by decide,
    delete_folder_noop_when_no_matches unrelatedFolderState "/" "does-not-exist"
      (by decide) (by decide) (by decide)⟩

/-- C7 counterexample: no folder row `/A` exists, yet
`delete_folder("/", "A")` deletes the prefix-sharing folder `/AB`, so the
store is changed — deleting a "non-existent" folder is not always a
no-op. -/
theorem delete_folder_missing_cex :
    (∀ r ∈ prefixSiblingState.folders, r.path ≠ computePath "/" "A") ∧
    (delete_folder prefixSiblingState "/" "A" none).1 ≠ prefixSiblingState ∧
    (delete_folder prefixSiblingState "/" "A" none).1.folders = [] := by
  decide

/-- C2 (amended): for queries free of `LIKE` metacharacters,
`search_files` returns exactly the file rows whose filename contains the
query up to ASCII case, truncated to 20 results; and P6's examples hold
concretely. -/
theorem search_files_substr_semantics :
    (∀ (s : DBState) (query : String), noWild query →
      search_files s query none = searchSpec s query) ∧
    search_files lectureState "lecture" none = [("Lecture01.pdf", "/", "ref")] ∧
    search_files lectureState "zzz" none = [] :=
  ⟨search_files_noWild, by decide, by decide⟩

/-- C2 witness: the amended theorem applied to the P6 store and query
`lecture`. -/
theorem search_files_substr_semantics_witness :
    noWild "lecture" ∧
    search_files lectureState "lecture" none = searchSpec lectureState "lecture" :=
  ⟨by decide, search_files_substr_semantics.1 lectureState "lecture" (by decide)⟩

/-- C2 counterexample: the query `a_b` contains the `LIKE` wildcard `_`,
so `search_files` returns the file `axb` although `a_b` is not a
case-insensitive substring of `axb` — search is not plain substring
matching. -/
theorem search_files_wildcard_cex :
    search_files wildcardSearchState "a_b" none = [("axb", "/", "id1")] ∧
    searchSpec wildcardSearchState "a_b" = [] ∧
    ¬ ((("a_b" : String).data.map Char.toLower) <:+:
      (("axb" : String).data.map Char.toLower)) := by
  decide

/-- C3: `add_file` is an upsert keyed on (filename, folder_path): after
two calls with the same key, exactly one file row with that key remains,
holding the reference, type, size and timestamp of the second call; both
calls return `True`; and `folders` is untouched, so no existing-Folder
precondition is involved. -/
theorem add_file_upsert (s : DBState) (fp fn ref1 ref2 ty1 ty2 : String)
    (sz1 sz2 t1 t2 : Nat) (hwf : wfFiles s) :
    ((add_file (add_file s fp fn ref1 ty1 sz1 t1 none).1
        fp fn ref2 ty2 sz2 t2 none).1.files.filter
      (fun r => r.filename == fn && r.folder_path == fp)) = [⟨fn, fp, ref2, ty2, sz2, t2⟩] ∧
    (add_file s fp fn ref1 ty1 sz1 t1 none).2 = some true ∧
    (add_file (add_file s fp fn ref1 ty1 sz1 t1 none).1 fp fn ref2 ty2 sz2 t2 none).2 =
      some true ∧
    (add_file (add_file s fp fn ref1 ty1 sz1 t1 none).1
      fp fn ref2 ty2 sz2 t2 none).1.folders = s.folders := by
  obtain ⟨hr1, hfo1, hu1, hwf1, hf1⟩ := add_file_one s fp fn ref1 ty1 sz1 t1 hwf
  obtain ⟨hr2, hfo2, hu2, hwf2, hf2⟩ :=
    add_file_one (add_file s fp fn ref1 ty1 sz1 t1 none).1 fp fn ref2 ty2 sz2 t2 hwf1
  exact ⟨hf2, hr1, hr2, hfo2.trans hfo1⟩

/-- C3 witness: the theorem applied to the empty store with two writes to
`("f.txt", "/")`. -/
theorem add_file_upsert_witness :
    wfFiles emptyDB ∧
    ((add_file (add_file emptyDB "/" "f.txt" "r1" "document" 1 10 none).1
        "/" "f.txt" "r2" "photo" 2 20 none).1.files.filter
      (fun r => r.filename == "f.txt" && r.folder_path == "/")) =
        [⟨"f.txt", "/", "r2", "photo", 2, 20⟩] ∧
    (add_file emptyDB "/" "f.txt" "r1" "document" 1 10 none).2 = some true ∧
    (add_file (add_file emptyDB "/" "f.txt" "r1" "document" 1 10 none).1
      "/" "f.txt" "r2" "photo" 2 20 none).2 = some true ∧
    (add_file (add_file emptyDB "/" "f.txt" "r1" "document" 1 10 none).1
      "/" "f.txt" "r2" "photo" 2 20 none).1.folders = emptyDB.folders := by
  have h := add_file_upsert emptyDB "/" "f.txt" "r1" "r2" "document" "photo" 1 2 10 20
    (by decide)
  exact ⟨by decide, h.1, h.2.1, h.2.2.1, h.2.2.2⟩

/-- C5: on the no-fault path, `list_children` returns as subfolder names
exactly the names of the folder rows whose `parent_path` equals `path`,
strictly sorted, and as files exactly the (filename, file_id) pairs of
the file rows whose `folder_path` equals `path`, strictly sorted by
filename (under the `UNIQUE(filename, folder_path)` constraint). -/
theorem list_children_sorted_exact (s : DBState) (path : String) (hwf : wfFiles s) :
    ((get_folder_structure s path none).subfolders.Pairwise (· < ·) ∧
     (∀ n : String, n ∈ (get_folder_structure s path none).subfolders ↔
       ∃ r, r ∈ s.folders ∧ r.parent_path = some path ∧ r.name = n)) ∧
    ((get_folder_structure s path none).files.Pairwise (fun a b => a.1 < b.1) ∧
     (∀ fn fid : String, (fn, fid) ∈ (get_folder_structure s path none).files ↔
       ∃ r, r ∈ s.files ∧ r.folder_path = path ∧ r.filename = fn ∧ r.file_id = fid)) :=
  ⟨gfs_subfolders s path, gfs_files s path hwf⟩

/-- C5 witness: the theorem applied to a store with root, `/A` and one
file in `/A`, listing `/`. -/
theorem list_children_sorted_exact_witness :
    wfFiles listDemoState ∧
    (((get_folder_structure listDemoState "/" none).subfolders.Pairwise (· < ·) ∧
      (∀ n : String, n ∈ (get_folder_structure listDemoState "/" none).subfolders ↔
        ∃ r, r ∈ listDemoState.folders ∧ r.parent_path = some "/" ∧ r.name = n)) ∧
     ((get_folder_structure listDemoState "/" none).files.Pairwise (fun a b => a.1 < b.1) ∧
      (∀ fn fid : String, (fn, fid) ∈ (get_folder_structure listDemoState "/" none).files ↔
        ∃ r, r ∈ listDemoState.files ∧ r.folder_path = "/" ∧ r.filename = fn ∧
          r.file_id = fid))) :=
  ⟨by decide, list_children_sorted_exact listDemoState "/" (by decide)⟩
